import Mathlib

/-!
Shallow embedding of the Call-Companion backend (FastAPI, `src/server/`):
the role/allowlist policy and duplicate-email check of `routes/auth.py`,
the ownership check of `routes/calls.py`, and the external generation
gateway of `routes/ai.py` (credential/version/model fallback loop,
bounded diagnostics deques, temperature clamping).
-/

namespace CallCompanion

/-- An HTTPException raised by a handler: status code plus detail text. -/
structure HTTPEx where
  statusCode : Nat
  detail : String
deriving Repr, DecidableEq

/-! Character-level models of the Python string primitives the handlers use
(`lower`, `strip`, slicing, `len`, `in`). They act on the character list of
the string, so every definition is structurally recursive and a concrete
witness can be checked by kernel evaluation. -/

/-- Python `str.lower()` (ASCII range, the one exercised by the code). -/
def pyLower (s : String) : String := ⟨s.data.map Char.toLower⟩

/-- The whitespace characters Python `str.strip()` removes. -/
def isPyWhitespace (c : Char) : Bool :=
  c = ' ' || c = '\t' || c = '\n' || c = '\r' || c = '\x0b' || c = '\x0c'

/-- Python `str.strip()`: drop whitespace from both ends. -/
def pyStrip (s : String) : String :=
  ⟨((s.data.dropWhile isPyWhitespace).reverse.dropWhile isPyWhitespace).reverse⟩

/-- Python `s[:n]` on a string (slicing counts code points, as `List.take`
on the character list does). -/
def pyTake (s : String) (n : Nat) : String := ⟨s.data.take n⟩

/-- Python `len(s)`. -/
def pyLen (s : String) : Nat := s.data.length

/-- Whether `pat` occurs at the start of `l`. -/
def startsWithChars : List Char → List Char → Bool
  | [], _ => true
  | _ :: _, [] => false
  | a :: as, b :: bs => a = b && startsWithChars as bs

/-- Whether `pat` occurs somewhere in `l`. -/
def occursInChars (pat : List Char) : List Char → Bool
  | [] => startsWithChars pat []
  | b :: bs => startsWithChars pat (b :: bs) || occursInChars pat bs

/-- Python `pat in s`. -/
def pyContains (s pat : String) : Bool := occursInChars pat.data s.data

/-- Python `e.strip().lower()`: the normalization applied to request emails. -/
def normEmail (e : String) : String := pyLower (pyStrip e)

/-- SQL `trim(lower(email))`: the normalization the signup and google-sync
queries apply to the stored email column. -/
def dbEmailNorm (e : String) : String := pyStrip (pyLower e)

/-! ## Role resolution (routes/auth.py signup lines 44-52, google-sync 192-199) -/

/-- Embeds the requested-role normalization plus admin-allowlist rule shared by
`signup` and `google_auth_sync`:
`requested_role = str(role).lower() if role else "employee"`; allowlisted
emails are forced to admin; otherwise a requested role in
`["employee", "admin"]` is kept, and anything else defaults to employee. -/
def resolve_role (requestedRole : Option String) (emailNorm : String)
    (adminEmails : List String) : String :=
  let requested : String :=
    match requestedRole with
    | none => "employee"
    | some r => if r = "" then "employee" else pyLower r
  if emailNorm ∈ adminEmails then "admin"
  else if requested = "employee" ∨ requested = "admin" then requested
  else "employee"

/-- Embeds the login-time elevation (routes/auth.py lines 138-144): if the
normalized email is allowlisted and the stored role is not already admin
(case-insensitively), the role is set to admin; otherwise it is kept. -/
def login_role (storedRole : String) (emailNorm : String)
    (adminEmails : List String) : String :=
  if emailNorm ∈ adminEmails ∧ pyLower storedRole ≠ "admin" then "admin"
  else storedRole

/-! ## Signup duplicate check (routes/auth.py lines 17-66) -/

/-- A row of the users table, with the fields signup writes. -/
structure DBUser where
  email : String
  hashed_password : String
  name : String
  role : String
  company_id : String
  is_active : Bool
deriving Repr, DecidableEq

/-- The signup request body. -/
structure SignupReq where
  email : String
  password : String
  name : String
  role : Option String
  company_id : Option String
deriving Repr, DecidableEq

/-- The existing-user lookup:
`db.query(User).filter(func.trim(func.lower(User.email)) == email_norm).first()`. -/
def find_existing_user (db : List DBUser) (emailNorm : String) : Option DBUser :=
  db.find? (fun u => dbEmailNorm u.email = emailNorm)

/-- Embeds the `signup` handler body (happy path and 409 branch): normalize
the email, reject with 409 Conflict if a user with the same normalized email
exists, otherwise append the new row (with allowlist-resolved role) and
return it. The password hasher is passed as a function parameter. -/
def signup (db : List DBUser) (req : SignupReq) (adminEmails : List String)
    (hash : String → String) : Except HTTPEx (List DBUser × DBUser) :=
  let en := normEmail req.email
  match find_existing_user db en with
  | some _ => .error ⟨409, "User with this email already exists"⟩
  | none =>
    let nameNorm := pyStrip req.name
    let companyNorm :=
      let c := pyStrip (req.company_id.getD "")
      if c = "" then "default-company" else c
    let roleStr := resolve_role req.role en adminEmails
    let u : DBUser := ⟨en, hash req.password, nameNorm, roleStr, companyNorm, true⟩
    .ok (db ++ [u], u)

/-! ## Call record access (routes/calls.py get_call_record, lines 127-150) -/

/-- A call record, restricted to the fields the access check reads. -/
structure CallRec where
  id : String
  user_id : String
deriving Repr, DecidableEq

/-- Embeds `get_call_record`: look the record up by id (404 when absent),
then `if current_user.role != "admin" and call_record.user_id !=
current_user.id` raise 403, else return the record. -/
def get_call_record (db : List CallRec) (callId : String)
    (userRole userId : String) : Except HTTPEx CallRec :=
  match db.find? (fun r => r.id = callId) with
  | none => .error ⟨404, "Call record not found"⟩
  | some r =>
    if userRole ≠ "admin" ∧ r.user_id ≠ userId then .error ⟨403, "Access denied"⟩
    else .ok r

/-! ## Bounded diagnostics deques (routes/ai.py lines 12-31) -/

/-- Capacity of the `_AI_ERRORS` and `_AI_EVENTS` deques (`maxlen=50`). -/
def DEQUE_MAXLEN : Nat := 50

/-- `deque(maxlen=n).appendleft(x)` on a most-recent-first list: the new
element goes to the front and the list is truncated to the capacity, so the
rightmost (oldest) element is evicted when full. -/
def appendleftBounded (maxlen : Nat) (x : α) (dq : List α) : List α :=
  (x :: dq).take maxlen

/-- An `_AI_ERRORS` entry as built by `_record_error`. -/
structure ErrorEntry where
  source : String
  api_version : Option String
  model : Option String
  status : Option Nat
  body : String
  note : Option String
deriving Repr, DecidableEq

/-- An `_AI_EVENTS` entry as built by `_record_event`; the detail dict is
modelled as an association list. -/
structure EventEntry where
  event : String
  detail : List (String × String)
deriving Repr, DecidableEq

/-- Embeds `_record_error`: build the entry (body truncated to 2000 chars,
`(body or "")[:2000]`) and push it on the left of the bounded deque. -/
def record_error (source : String) (apiVersion modelName : Option String)
    (status : Option Nat) (body : Option String) (note : Option String)
    (dq : List ErrorEntry) : List ErrorEntry :=
  appendleftBounded DEQUE_MAXLEN
    ⟨source, apiVersion, modelName, status, pyTake (body.getD "") 2000, note⟩ dq

/-- Embeds `_record_event`: push `{event, detail or {}}` on the left of the
bounded events deque. -/
def record_event (event : String) (detail : Option (List (String × String)))
    (dq : List EventEntry) : List EventEntry :=
  appendleftBounded DEQUE_MAXLEN ⟨event, detail.getD []⟩ dq

/-- One record operation against the two gateway diagnostics logs. -/
inductive RecOp where
  | err (source : String) (apiVersion modelName : Option String)
      (status : Option Nat) (body : Option String) (note : Option String)
  | ev (event : String) (detail : Option (List (String × String)))
deriving Repr

/-- Apply a sequence of record operations to the (errors, events) state. -/
def applyRecOps : List RecOp → List ErrorEntry × List EventEntry →
    List ErrorEntry × List EventEntry
  | [], st => st
  | .err s v m c b n :: rest, st =>
    applyRecOps rest (record_error s v m c b n st.1, st.2)
  | .ev e d :: rest, st => applyRecOps rest (st.1, record_event e d st.2)

/-! ## External generation gateway (routes/ai.py chat_with_gemini) -/

/-- The chat request body (`ChatRequest`); the pydantic float temperature is
modelled over the rationals (only comparisons and constants occur, which the
rationals model exactly). As in the pydantic model
`temperature: float | None = 0.7`, an omitted field defaults to 0.7 while an
explicit JSON null is `none`. -/
structure ChatReq where
  message : String
  context : Option String
  temperature : Option ℚ := some 0.7
  apiKey : Option String

/-- One part of a provider candidate content (`parts[i]`, with optional
`text`). -/
structure GPart where
  text : Option String
deriving Repr, DecidableEq

/-- A candidate content (`candidates[i].get("content", {})`, whose `parts`
default to the empty list). -/
structure GContent where
  parts : List GPart
deriving Repr, DecidableEq

/-- A provider candidate. -/
structure GCandidate where
  content : GContent
deriving Repr, DecidableEq

/-- A parsed success body (`d.get("candidates") or []`). -/
structure GBody where
  candidates : List GCandidate
deriving Repr, DecidableEq

/-- What one provider request can come back as, seen from the handler:
a transport exception, an HTTP 200 whose JSON parsed, an HTTP 200 whose
parsing raised, or a non-200 status with a body text. -/
inductive GResponse where
  | exn (msg : String)
  | ok (body : GBody)
  | okParseError (bodyText : String) (err : String)
  | err (status : Nat) (bodyText : String)
deriving Repr, DecidableEq

/-- A provider transport: the response as a function of the key value, the
API version and the model name (the only request parts that vary between
attempts; the JSON payload is identical for every attempt). -/
def Transport : Type := String → String → String → GResponse

/-- One attempted (credential, version, model) combination, with the key
source label used in diagnostics. -/
structure Attempt where
  src : String
  key : String
  apiVersion : String
  model : String
deriving Repr, DecidableEq

/-- Python `'API_KEY_INVALID' in resp.text`: the pattern occurs iff
`splitOn` yields at least two pieces. -/
def containsApiKeyInvalid (body : String) : Bool :=
  pyContains body "API_KEY_INVALID"

/-- `(s or "").strip() or None` applied to an optional string: trim, and
collapse the empty result to `none`. -/
def strippedOpt (s : Option String) : Option String :=
  let t := pyStrip (s.getD "")
  if t = "" then none else some t

/-- The model-candidate list (routes/ai.py lines 59-71): the `GEMINI_MODEL`
environment override first, then the fixed fallback list, with falsy entries
filtered out. -/
def modelCandidates (preferredModel : Option String) : List String :=
  (([preferredModel, some "gemini-2.0-flash", some "gemini-2.0-flash-lite",
      some "gemini-1.5-flash-latest", some "gemini-1.5-flash",
      some "gemini-1.5-pro-latest", some "gemini-1.5-pro"] :
    List (Option String)).filterMap id).filter (fun m => m ≠ "")

/-- The API version list: GA first, then beta. -/
def apiVersions : List String := ["v1", "v1beta"]

/-- The credential sequence (routes/ai.py lines 92-96): the client key first
when present, then the server key when present and different. -/
def keySequence (clientKey serverKey : Option String) :
    List (String × String) :=
  (match clientKey with
   | some k => [("client", k)]
   | none => []) ++
  (match serverKey with
   | some k => if clientKey ≠ some k then [("server", k)] else []
   | none => [])

/-- The temperature actually sent
(`min(max(payload.temperature or 0.6, 0.0), 1.0)`; note that Python `or`
replaces both `None` and `0.0` by the default). -/
def sentTemperature (t : Option ℚ) : ℚ :=
  min (max (match t with
            | none => (0.6 : ℚ)
            | some v => if v = 0 then (0.6 : ℚ) else v) 0) 1

/-- The prompt actually sent: the context block is prepended when the
context is present and non-empty (Python truthiness), and the result is
truncated to 6000 characters. -/
def buildPrompt (message : String) (context : Option String) : String :=
  let prompt :=
    match context with
    | none => message
    | some c =>
      if c = "" then message
      else "Context:\n" ++ c ++ "\n\nUser: " ++ message
  if pyLen prompt > 6000 then pyTake prompt 6000 else prompt

/-- Outcome of one of the nested loops: a successful reply with the trace of
attempts issued so far, or exhaustion with the final `last_error_text`. -/
inductive RunOut where
  | success (reply : String) (trace : List Attempt)
  | exhausted (lastErr : Option String) (trace : List Attempt)
deriving Repr, DecidableEq

/-- The inner `for model in model_candidates` loop. On an exception the
error text is recorded and iteration continues; on a 200 with a first
candidate owning a non-empty parts list the reply
`parts[0].get("text") or ""` is returned; on a 200 otherwise (or a parse
error) iteration continues without touching `last_error_text`; on any other
status the body becomes `last_error_text`, and when the status is 400 with
`API_KEY_INVALID` in the body the loop breaks (which in the source exits
only this model loop: the `api_version = None` assignment does not affect
the version loop). -/
def runModels (t : Transport) (src key ver : String) :
    List String → Option String → List Attempt → RunOut
  | [], lastErr, tr => .exhausted lastErr tr
  | m :: rest, lastErr, tr =>
    let tr := tr ++ [⟨src, key, ver, m⟩]
    match t key ver m with
    | .exn msg => runModels t src key ver rest (some msg) tr
    | .ok body =>
      match body.candidates with
      | [] => runModels t src key ver rest lastErr tr
      | c :: _ =>
        match c.content.parts with
        | [] => runModels t src key ver rest lastErr tr
        | p :: _ => .success (p.text.getD "") tr
    | .okParseError _ _ => runModels t src key ver rest lastErr tr
    | .err status bodyText =>
      if status = 400 ∧ containsApiKeyInvalid bodyText then
        .exhausted (some bodyText) tr
      else runModels t src key ver rest (some bodyText) tr

/-- The middle `for api_version in api_versions` loop. -/
def runVersions (t : Transport) (src key : String) (models : List String) :
    List String → Option String → List Attempt → RunOut
  | [], lastErr, tr => .exhausted lastErr tr
  | ver :: rest, lastErr, tr =>
    match runModels t src key ver models lastErr tr with
    | .success r tr => .success r tr
    | .exhausted le tr => runVersions t src key models rest le tr

/-- The outer `for key_label, key_value in key_sequence` loop. -/
def runKeys (t : Transport) (models : List String) :
    List (String × String) → Option String → List Attempt → RunOut
  | [], lastErr, tr => .exhausted lastErr tr
  | (label, key) :: rest, lastErr, tr =>
    match runVersions t label key models apiVersions lastErr tr with
    | .success r tr => .success r tr
    | .exhausted le tr => runKeys t models rest le tr

/-- The canned exhaustion reply (routes/ai.py lines 140-149): the apology
text, with `"\n\n[diagnostic]\n" + last_error_text[:400]` appended when
`if last_error_text:` holds, that is when the last error text is neither
absent nor empty (Python truthiness). -/
def fallbackReply (lastErr : Option String) : String :=
  "I\x27m having trouble reaching the AI provider right now. " ++
  "Please verify the server AI key and quota, then try again." ++
  (match lastErr with
   | none => ""
   | some e => if e = "" then "" else "\n\n[diagnostic]\n" ++ pyTake e 400)

/-- Embeds `chat_with_gemini`: strip the client and server keys, raise 500
when neither is configured, otherwise run the nested fallback loops and
return either the successful reply or the canned exhaustion reply, always
as a 200. The result carries the ordered trace of issued attempts (the
observable call order, as the specification's fake-transport test records
it). -/
def chat_with_gemini (t : Transport) (payload : ChatReq)
    (envGeminiKey : String) (envGeminiModel : Option String) :
    Except HTTPEx (String × List Attempt) :=
  let clientKey := strippedOpt payload.apiKey
  let serverKey := strippedOpt (some envGeminiKey)
  let apiKey := match serverKey with
                | some k => some k
                | none => clientKey
  match apiKey with
  | none => .error ⟨500, "Gemini API key is not configured"⟩
  | some _ =>
    match runKeys t (modelCandidates envGeminiModel)
        (keySequence clientKey serverKey) none [] with
    | .success reply tr => .ok (reply, tr)
    | .exhausted lastErr tr => .ok (fallbackReply lastErr, tr)

/-! ## Reference (flattened) semantics used to state the gateway claims -/

/-- The text the handler extracts from a response, when the response counts
as a success (HTTP 200, parsed, non-empty candidates, non-empty parts):
`parts[0].get("text") or ""`. -/
def extractSuccess (r : GResponse) : Option String :=
  match r with
  | .ok body =>
    match body.candidates with
    | [] => none
    | c :: _ =>
      match c.content.parts with
      | [] => none
      | p :: _ => some (p.text.getD "")
  | _ => none

/-- Whether a response is the explicit invalid-credential signal:
HTTP 400 with `API_KEY_INVALID` in the body. -/
def isInvalidKeySignal (r : GResponse) : Bool :=
  match r with
  | .err status bodyText => status = 400 && containsApiKeyInvalid bodyText
  | _ => false

/-- How one response updates `last_error_text`: exceptions and non-200
statuses set it to their text; everything else leaves it unchanged. -/
def updateLastErr (r : GResponse) (le : Option String) : Option String :=
  match r with
  | .exn msg => some msg
  | .err _ bodyText => some bodyText
  | _ => le

/-- The `last_error_text` after issuing a list of attempts in order. -/
def lastErrorAfter (t : Transport) (le : Option String) :
    List Attempt → Option String
  | [] => le
  | a :: rest => lastErrorAfter t (updateLastErr (t a.key a.apiVersion a.model) le) rest

/-- The full nested-product candidate sequence
credential → version → model, in iteration order. -/
def attemptSequence (clientKey serverKey : Option String)
    (models : List String) : List Attempt :=
  (keySequence clientKey serverKey).flatMap (fun kp =>
    apiVersions.flatMap (fun v =>
      models.map (fun m => ⟨kp.1, kp.2, v, m⟩)))

/-- Split a candidate list at its first successful attempt: the failing
prefix, the succeeding attempt, and its extracted text. -/
def firstSuccessSplit (t : Transport) :
    List Attempt → Option (List Attempt × Attempt × String)
  | [] => none
  | a :: rest =>
    match extractSuccess (t a.key a.apiVersion a.model) with
    | some text => some ([], a, text)
    | none =>
      match firstSuccessSplit t rest with
      | some (pre, b, text) => some (a :: pre, b, text)
      | none => none

/-- Reference single-loop scan over a flat candidate list, mirroring what
each nested loop does per attempt when no invalid-credential signal occurs. -/
def scanRun (t : Transport) :
    List Attempt → Option String → List Attempt → RunOut
  | [], le, tr => .exhausted le tr
  | a :: rest, le, tr =>
    let r := t a.key a.apiVersion a.model
    match extractSuccess r with
    | some text => .success text (tr ++ [a])
    | none => scanRun t rest (updateLastErr r le) (tr ++ [a])

/-! ## Concrete transports used to exercise the gateway -/

/-- A transport on which the key `BADKEY` always answers the explicit
invalid-credential signal (HTTP 400, body containing `API_KEY_INVALID`) and
every other key always fails with a 503. -/
def badKeyTransport : Transport := fun k _ _ =>
  if k = "BADKEY" then .err 400 "API_KEY_INVALID: bad" else .err 503 "unavailable"

/-- A transport whose every response is an HTTP 200 success whose single
candidate carries a single part with the empty text. -/
def emptyTextTransport : Transport := fun _ _ _ => .ok ⟨[⟨⟨[⟨some ""⟩]⟩⟩]⟩

/-- A transport that fails with a plain 503 on every request. -/
def allFailTransport : Transport := fun _ _ _ => .err 503 "boom"

/-- A transport that succeeds (with text `hello there`) exactly on the model
`gemini-1.5-flash` and fails with a plain 500 elsewhere. -/
def fourthModelTransport : Transport := fun _ _ m =>
  if m = "gemini-1.5-flash" then .ok ⟨[⟨⟨[⟨some "hello there"⟩]⟩⟩]⟩
  else .err 500 "oops"

/-! ## Theorems for the claims -/

/-- C4: a request whose normalized email is on the admin allowlist resolves
to role admin on signup, google-sync and login, even when the body requested
employee; for a non-allowlisted email a requested role of employee or admin
is kept and anything else defaults to employee. -/
theorem allowlisted_email_is_admin (email : String) (adminEmails : List String)
    (req : Option String) (stored : String) :
    (normEmail email ∈ adminEmails →
      resolve_role req (normEmail email) adminEmails = "admin" ∧
      pyLower (login_role stored (normEmail email) adminEmails) = "admin") ∧
    (normEmail email ∉ adminEmails →
      (req = some "employee" →
        resolve_role req (normEmail email) adminEmails = "employee") ∧
      (req = some "admin" →
        resolve_role req (normEmail email) adminEmails = "admin") ∧
      (req = none → resolve_role req (normEmail email) adminEmails = "employee") ∧
      ∀ r, req = some r → pyLower r ≠ "employee" → pyLower r ≠ "admin" →
        resolve_role req (normEmail email) adminEmails = "employee") := by
  constructor
  · intro h
    refine ⟨by simp [resolve_role, h], ?_⟩
    by_cases hs : pyLower stored = "admin"
    · simp [login_role, hs]
    · simp only [login_role, if_pos (And.intro h hs)]
      decide
  · intro h
    refine ⟨?_, ?_, ?_, ?_⟩
    · rintro rfl
      simp only [resolve_role]
      rw [if_neg h]
      decide
    · rintro rfl
      simp only [resolve_role]
      rw [if_neg h]
      decide
    · rintro rfl
      simp only [resolve_role]
      rw [if_neg h]
      decide
    · rintro r rfl hr1 hr2
      by_cases hempty : r = ""
      · subst hempty
        simp only [resolve_role]
        rw [if_neg h]
        decide
      · simp only [resolve_role, if_neg hempty]
        rw [if_neg h, if_neg (by simp [hr1, hr2])]

/-- Witness for C4 at concrete inputs (allowlisted email with casing and
whitespace variation, and non-allowlisted requests). -/
theorem allowlisted_email_is_admin_spot :
    resolve_role (some "employee") (normEmail "  Alice@X.com ") ["alice@x.com"] = "admin" ∧
    pyLower (login_role "employee" (normEmail "  Alice@X.com ") ["alice@x.com"]) = "admin" ∧
    resolve_role (some "admin") (normEmail "bob@y.com") ["alice@x.com"] = "admin" ∧
    resolve_role (some "manager") (normEmail "bob@y.com") ["alice@x.com"] = "employee" := by
  have h1 := (allowlisted_email_is_admin "  Alice@X.com " ["alice@x.com"]
    (some "employee") "employee").1 (by decide)
  have h2 := ((allowlisted_email_is_admin "bob@y.com" ["alice@x.com"]
    (some "admin") "x").2 (by decide)).2.1 rfl
  have h3 := ((allowlisted_email_is_admin "bob@y.com" ["alice@x.com"]
    (some "manager") "x").2 (by decide)).2.2.2 "manager" rfl (by decide) (by decide)
  exact ⟨h1.1, h1.2, h2, h3⟩

/-- C6: a signup whose normalized email coincides with the normalized email
of a registered user fails with 409 Conflict, whatever casing or whitespace
variation the new request uses, and returns no new user table. -/
theorem signup_duplicate_email_conflict (db : List DBUser) (req : SignupReq)
    (adminEmails : List String) (hash : String → String) (u : DBUser)
    (hu : u ∈ db) (he : dbEmailNorm u.email = normEmail req.email) :
    signup db req adminEmails hash =
      .error ⟨409, "User with this email already exists"⟩ := by
  have hsome : (find_existing_user db (normEmail req.email)).isSome := by
    unfold find_existing_user
    rw [List.find?_isSome]
    exact ⟨u, hu, by simp [he]⟩
  obtain ⟨v, hv⟩ := Option.isSome_iff_exists.mp hsome
  simp [signup, hv]

/-- Witness for C6: the second signup of the spec's end-to-end example
(different case and whitespace) hits the 409. -/
theorem signup_duplicate_email_conflict_spot :
    signup [⟨"a@x.com", "h", "A", "employee", "c1", true⟩]
        ⟨" A@X.com ", "pw", "A2", some "employee", some "c1"⟩ [] (fun s => s) =
      .error ⟨409, "User with this email already exists"⟩ :=
  signup_duplicate_email_conflict _ _ _ _
    ⟨"a@x.com", "h", "A", "employee", "c1", true⟩ (by simp) (by decide)

/-- C7: on an existing call record, a non-admin caller who is not the owner
gets 403 Forbidden, while an admin caller gets the record back. -/
theorem call_record_ownership (db : List CallRec) (callId : String)
    (role uid : String) (r : CallRec)
    (hfind : db.find? (fun c => c.id = callId) = some r) :
    (role ≠ "admin" → uid ≠ r.user_id →
      get_call_record db callId role uid = .error ⟨403, "Access denied"⟩) ∧
    (role = "admin" → get_call_record db callId role uid = .ok r) := by
  constructor
  · intro hrole huid
    simp only [get_call_record, hfind]
    rw [if_pos (And.intro hrole (Ne.symm huid))]
  · intro hrole
    simp only [get_call_record, hfind]
    rw [if_neg (by simp [hrole])]

/-- Witness for C7 at a concrete record: the owner is `u1`; the non-admin
`u2` is refused and an admin succeeds. -/
theorem call_record_ownership_spot :
    get_call_record [⟨"c1", "u1"⟩] "c1" "employee" "u2" =
      .error ⟨403, "Access denied"⟩ ∧
    get_call_record [⟨"c1", "u1"⟩] "c1" "admin" "u2" = .ok ⟨"c1", "u1"⟩ := by
  have h1 := (call_record_ownership [⟨"c1", "u1"⟩] "c1" "employee" "u2"
    ⟨"c1", "u1"⟩ (by decide)).1 (by decide) (by decide)
  have h2 := (call_record_ownership [⟨"c1", "u1"⟩] "c1" "admin" "u2"
    ⟨"c1", "u1"⟩ (by decide)).2 rfl
  exact ⟨h1, h2⟩

/-- Helper: applying record operations keeps both logs within capacity. -/
theorem applyRecOps_length_le (ops : List RecOp)
    (st : List ErrorEntry × List EventEntry)
    (h1 : st.1.length ≤ DEQUE_MAXLEN) (h2 : st.2.length ≤ DEQUE_MAXLEN) :
    (applyRecOps ops st).1.length ≤ DEQUE_MAXLEN ∧
    (applyRecOps ops st).2.length ≤ DEQUE_MAXLEN := by
  induction ops generalizing st with
  | nil => exact ⟨h1, h2⟩
  | cons op rest ih =>
    cases op with
    | err s v m c b n =>
      refine ih _ ?_ h2
      simp only [record_error, appendleftBounded]
      simp
    | ev e d =>
      refine ih _ h1 ?_
      simp only [record_event, appendleftBounded]
      simp

/-- C8: after any sequence of record operations from the empty logs, neither
diagnostics deque exceeds its capacity of 50; a new entry goes to the front
(most-recent-first) and, at capacity, pushes the oldest (last) entry out. -/
theorem diagnostics_logs_bounded (ops : List RecOp) (x : ErrorEntry)
    (y : EventEntry) (dqe : List ErrorEntry) (dqv : List EventEntry)
    (he : dqe.length = DEQUE_MAXLEN) (hv : dqv.length = DEQUE_MAXLEN) :
    (applyRecOps ops ([], [])).1.length ≤ DEQUE_MAXLEN ∧
    (applyRecOps ops ([], [])).2.length ≤ DEQUE_MAXLEN ∧
    appendleftBounded DEQUE_MAXLEN x dqe = x :: dqe.dropLast ∧
    appendleftBounded DEQUE_MAXLEN y dqv = y :: dqv.dropLast := by
  obtain ⟨hb1, hb2⟩ := applyRecOps_length_le ops ([], [])
    (by simp) (by simp)
  refine ⟨hb1, hb2, ?_, ?_⟩
  · unfold appendleftBounded
    rw [List.dropLast_eq_take, he]
    rw [show DEQUE_MAXLEN = (DEQUE_MAXLEN - 1) + 1 from rfl, List.take_succ_cons]
    norm_num
  · unfold appendleftBounded
    rw [List.dropLast_eq_take, hv]
    rw [show DEQUE_MAXLEN = (DEQUE_MAXLEN - 1) + 1 from rfl, List.take_succ_cons]
    norm_num

/-- Witness for C8 at a concrete operation sequence and two full deques. -/
theorem diagnostics_logs_bounded_spot :
    (applyRecOps [RecOp.ev "chat_request_received" none] ([], [])).1.length ≤ DEQUE_MAXLEN ∧
    (applyRecOps [RecOp.ev "chat_request_received" none] ([], [])).2.length ≤ DEQUE_MAXLEN ∧
    appendleftBounded DEQUE_MAXLEN (⟨"client", some "v1", some "gemini-2.0-flash", some 503, "unavailable", some "http error"⟩ : ErrorEntry)
        (List.replicate DEQUE_MAXLEN ⟨"s", none, none, none, "", none⟩) =
      (⟨"client", some "v1", some "gemini-2.0-flash", some 503, "unavailable", some "http error"⟩ : ErrorEntry) ::
        (List.replicate DEQUE_MAXLEN (⟨"s", none, none, none, "", none⟩ : ErrorEntry)).dropLast ∧
    appendleftBounded DEQUE_MAXLEN (⟨"chat_success", [("model", "gemini-2.0-flash")]⟩ : EventEntry)
        (List.replicate DEQUE_MAXLEN ⟨"e", []⟩) =
      (⟨"chat_success", [("model", "gemini-2.0-flash")]⟩ : EventEntry) ::
        (List.replicate DEQUE_MAXLEN (⟨"e", []⟩ : EventEntry)).dropLast :=
  diagnostics_logs_bounded [RecOp.ev "chat_request_received" none] _ _ _ _
    (by simp) (by simp)

/-- C9 counterexample: a caller-supplied temperature of 0 is not sent as its
clamp 0; Python `payload.temperature or 0.6` replaces 0.0 by the default, so
0.6 is sent. -/
theorem temperature_zero_not_clamped :
    sentTemperature (some 0) ≠ min (max (0 : ℚ) 0) 1 := by
  norm_num [sentTemperature]

/-- C9 (amended): the sent temperature always lies in the interval 0..1; a
caller-supplied nonzero temperature is sent clamped to that interval; a
zero or explicit-null hint is sent as the Python `or` default 0.6; a
request whose temperature field is omitted carries the pydantic default
0.7, which is what gets sent. -/
theorem sent_temperature_clamped (t : Option ℚ) (msg : String)
    (ctx key : Option String) :
    (0 ≤ sentTemperature t ∧ sentTemperature t ≤ 1) ∧
    (∀ v : ℚ, t = some v → v ≠ 0 → sentTemperature t = min (max v 0) 1) ∧
    ((t = none ∨ t = some 0) → sentTemperature t = 0.6) ∧
    sentTemperature
      ({ message := msg, context := ctx, apiKey := key } : ChatReq).temperature =
      0.7 := by
  refine ⟨⟨le_min (le_max_right _ _) zero_le_one, min_le_right _ _⟩, ?_, ?_, ?_⟩
  · rintro v rfl hv
    simp [sentTemperature, hv]
  · rintro (rfl | rfl) <;> norm_num [sentTemperature]
  · norm_num [sentTemperature]

/-- Witness for C9 at concrete temperatures 2 (clamped to 1), an explicit
null, and a request omitting the temperature field. -/
theorem sent_temperature_clamped_spot :
    (0 ≤ sentTemperature (some 2) ∧ sentTemperature (some 2) ≤ 1) ∧
    sentTemperature (some 2) = min (max (2 : ℚ) 0) 1 ∧
    sentTemperature none = 0.6 ∧
    sentTemperature
      ({ message := "hi", context := none, apiKey := none } : ChatReq).temperature =
      0.7 :=
  ⟨(sent_temperature_clamped (some 2) "hi" none none).1,
   (sent_temperature_clamped (some 2) "hi" none none).2.1 2 rfl (by norm_num),
   (sent_temperature_clamped none "hi" none none).2.2.1 (Or.inl rfl),
   (sent_temperature_clamped none "hi" none none).2.2.2⟩

/-- C10: when neither the caller key nor the server key survives trimming,
the chat handler raises HTTP 500 with the configuration detail, for every
transport (hence before any provider call can matter). -/
theorem chat_no_key_is_500 (t : Transport) (payload : ChatReq)
    (envKey : String) (envModel : Option String)
    (hc : strippedOpt payload.apiKey = none)
    (hs : strippedOpt (some envKey) = none) :
    chat_with_gemini t payload envKey envModel =
      .error ⟨500, "Gemini API key is not configured"⟩ := by
  unfold chat_with_gemini
  rw [hc, hs]

/-- Witness for C10: a whitespace caller key and an empty server key. -/
theorem chat_no_key_is_500_spot :
    chat_with_gemini allFailTransport ⟨"hi", none, none, some "   "⟩ "" none =
      .error ⟨500, "Gemini API key is not configured"⟩ :=
  chat_no_key_is_500 allFailTransport ⟨"hi", none, none, some "   "⟩ "" none
    (by decide) (by decide)

/-- C1 (code bug evidence): with caller key `BADKEY` answered by the
explicit invalid-credential signal and server key `SERVERKEY`, the handler
still issues a request with `BADKEY` on `v1beta` after the signal on `v1`:
the `break` leaves only the model loop, so the version loop continues with
the known-bad credential before moving on to the server key. -/
theorem invalid_key_credential_not_abandoned :
    chat_with_gemini badKeyTransport ⟨"hi", none, none, some "BADKEY"⟩
        "SERVERKEY" none =
      .ok (fallbackReply (some "unavailable"),
        [⟨"client", "BADKEY", "v1", "gemini-2.0-flash"⟩,
         ⟨"client", "BADKEY", "v1beta", "gemini-2.0-flash"⟩,
         ⟨"server", "SERVERKEY", "v1", "gemini-2.0-flash"⟩,
         ⟨"server", "SERVERKEY", "v1", "gemini-2.0-flash-lite"⟩,
         ⟨"server", "SERVERKEY", "v1", "gemini-1.5-flash-latest"⟩,
         ⟨"server", "SERVERKEY", "v1", "gemini-1.5-flash"⟩,
         ⟨"server", "SERVERKEY", "v1", "gemini-1.5-pro-latest"⟩,
         ⟨"server", "SERVERKEY", "v1", "gemini-1.5-pro"⟩,
         ⟨"server", "SERVERKEY", "v1beta", "gemini-2.0-flash"⟩,
         ⟨"server", "SERVERKEY", "v1beta", "gemini-2.0-flash-lite"⟩,
         ⟨"server", "SERVERKEY", "v1beta", "gemini-1.5-flash-latest"⟩,
         ⟨"server", "SERVERKEY", "v1beta", "gemini-1.5-flash"⟩,
         ⟨"server", "SERVERKEY", "v1beta", "gemini-1.5-pro-latest"⟩,
         ⟨"server", "SERVERKEY", "v1beta", "gemini-1.5-pro"⟩]) := by
  rfl

/-- C2 counterexample: on a transport whose first response is an HTTP 200
success whose only completion text is empty, iteration stops at that first
attempt and returns the empty reply, although the response contains no
non-empty completion text. -/
theorem stops_on_empty_completion_text :
    chat_with_gemini emptyTextTransport ⟨"hi", none, none, some "CK"⟩ "" none =
      .ok ("", [⟨"client", "CK", "v1", "gemini-2.0-flash"⟩]) ∧
    extractSuccess (emptyTextTransport "CK" "v1" "gemini-2.0-flash") = some "" := by
  exact ⟨rfl, rfl⟩

/-! ## Lemmas relating the nested loops to the flattened candidate scan -/

/-- Helper: `lastErrorAfter` distributes over appending attempt lists. -/
theorem lastErrorAfter_append (t : Transport) (l1 l2 : List Attempt) :
    ∀ le, lastErrorAfter t le (l1 ++ l2) =
      lastErrorAfter t (lastErrorAfter t le l1) l2 := by
  induction l1 with
  | nil => intro le; rfl
  | cons a rest ih =>
    intro le
    simp only [List.cons_append, lastErrorAfter]
    exact ih _

/-- Helper: scanning an appended candidate list runs the first part and, on
exhaustion, continues with the second. -/
theorem scanRun_append (t : Transport) (l1 l2 : List Attempt) :
    ∀ (le : Option String) (tr : List Attempt),
    scanRun t (l1 ++ l2) le tr =
      match scanRun t l1 le tr with
      | .success x r => .success x r
      | .exhausted le2 tr2 => scanRun t l2 le2 tr2 := by
  induction l1 with
  | nil => intro le tr; rfl
  | cons a rest ih =>
    intro le tr
    simp only [List.cons_append, scanRun]
    cases hx : extractSuccess (t a.key a.apiVersion a.model) with
    | some text => rfl
    | none => exact ih _ _

/-- Helper: when no response on the given models is the invalid-credential
signal, the model loop is the flat scan of its attempt list. -/
theorem runModels_eq_scanRun (t : Transport) (src key ver : String)
    (ms : List String)
    (h : ∀ m ∈ ms, isInvalidKeySignal (t key ver m) = false) :
    ∀ (le : Option String) (tr : List Attempt),
    runModels t src key ver ms le tr =
      scanRun t (ms.map (fun m => ⟨src, key, ver, m⟩)) le tr := by
  induction ms with
  | nil => intro le tr; rfl
  | cons m rest ih =>
    intro le tr
    have hm := h m (List.mem_cons_self m rest)
    have hrest : ∀ x ∈ rest, isInvalidKeySignal (t key ver x) = false :=
      fun x hx => h x (List.mem_cons_of_mem m hx)
    simp only [runModels, List.map_cons, scanRun]
    cases hr : t key ver m with
    | exn msg =>
      simp only [extractSuccess, updateLastErr]
      exact ih hrest _ _
    | ok body =>
      cases hb : body.candidates with
      | nil =>
        simp only [extractSuccess, hb, updateLastErr]
        exact ih hrest _ _
      | cons c cs =>
        cases hp : c.content.parts with
        | nil =>
          simp only [extractSuccess, hb, hp, updateLastErr]
          exact ih hrest _ _
        | cons p ps => simp only [extractSuccess, hb, hp]
    | okParseError bodyText err =>
      simp only [extractSuccess, updateLastErr]
      exact ih hrest _ _
    | err status bodyText =>
      have hni : ¬(status = 400 ∧ containsApiKeyInvalid bodyText) := by
        simpa [isInvalidKeySignal, hr] using hm
      simp only [extractSuccess, updateLastErr, if_neg hni]
      exact ih hrest _ _

/-- Helper: when no response for the given key is the invalid-credential
signal, the version loop is the flat scan of its attempt list. -/
theorem runVersions_eq_scanRun (t : Transport) (src key : String)
    (models : List String) (vs : List String)
    (h : ∀ v ∈ vs, ∀ m ∈ models, isInvalidKeySignal (t key v m) = false) :
    ∀ (le : Option String) (tr : List Attempt),
    runVersions t src key models vs le tr =
      scanRun t (vs.flatMap (fun v => models.map (fun m => ⟨src, key, v, m⟩)))
        le tr := by
  induction vs with
  | nil => intro le tr; rfl
  | cons v rest ih =>
    intro le tr
    have hv : ∀ m ∈ models, isInvalidKeySignal (t key v m) = false :=
      fun m hm => h v (List.mem_cons_self v rest) m hm
    have hrest : ∀ v2 ∈ rest, ∀ m ∈ models, isInvalidKeySignal (t key v2 m) = false :=
      fun v2 hv2 m hm => h v2 (List.mem_cons_of_mem v hv2) m hm
    simp only [runVersions, List.flatMap_cons]
    rw [runModels_eq_scanRun t src key v models hv, scanRun_append]
    cases hsc : scanRun t (models.map fun m => ⟨src, key, v, m⟩) le tr with
    | success x r => rfl
    | exhausted le2 tr2 => exact ih hrest _ _

/-- Helper: when no response at all is the invalid-credential signal, the
key loop is the flat scan of the whole nested candidate product. -/
theorem runKeys_eq_scanRun (t : Transport) (models : List String)
    (keys : List (String × String))
    (h : ∀ k v m, isInvalidKeySignal (t k v m) = false) :
    ∀ (le : Option String) (tr : List Attempt),
    runKeys t models keys le tr =
      scanRun t (keys.flatMap (fun kp => apiVersions.flatMap
        (fun v => models.map (fun m => ⟨kp.1, kp.2, v, m⟩)))) le tr := by
  induction keys with
  | nil => intro le tr; rfl
  | cons kp rest ih =>
    intro le tr
    obtain ⟨label, key⟩ := kp
    simp only [runKeys, List.flatMap_cons]
    rw [runVersions_eq_scanRun t label key models apiVersions
      (fun v _ m _ => h key v m), scanRun_append]
    cases hsc : scanRun t (apiVersions.flatMap fun v =>
        models.map fun m => ⟨label, key, v, m⟩) le tr with
    | success x r => rfl
    | exhausted le2 tr2 => exact ih _ _

/-- Helper: the flat scan stops at the first successful candidate (returning
its extracted text and the trace up to and including it) and otherwise
exhausts the whole list, accumulating the last error text. -/
theorem scanRun_spec (t : Transport) (cands : List Attempt) :
    ∀ (le : Option String) (tr : List Attempt),
    scanRun t cands le tr =
      match firstSuccessSplit t cands with
      | some (pre, a, text) => .success text (tr ++ (pre ++ [a]))
      | none => .exhausted (lastErrorAfter t le cands) (tr ++ cands) := by
  induction cands with
  | nil =>
    intro le tr
    simp [scanRun, firstSuccessSplit, lastErrorAfter]
  | cons a rest ih =>
    intro le tr
    simp only [scanRun, firstSuccessSplit, lastErrorAfter]
    cases hx : extractSuccess (t a.key a.apiVersion a.model) with
    | some text => simp
    | none =>
      rw [ih]
      cases hf : firstSuccessSplit t rest with
      | some pat =>
        obtain ⟨pre, b, text⟩ := pat
        simp
      | none => simp

/-- Helper: the nested flatMap product named by `attemptSequence`. -/
theorem attemptSequence_eq (ck sk : Option String) (models : List String) :
    (keySequence ck sk).flatMap (fun kp => apiVersions.flatMap
      (fun v => models.map (fun m => ⟨kp.1, kp.2, v, m⟩))) =
      attemptSequence ck sk models := rfl

/-- Helper: when at least one key is configured the handler returns exactly
what the key loop yields, packaged as a 200 reply. -/
theorem chat_eq_runKeys (t : Transport) (payload : ChatReq)
    (envKey : String) (envModel : Option String)
    (hKey : strippedOpt (some envKey) ≠ none ∨ strippedOpt payload.apiKey ≠ none) :
    chat_with_gemini t payload envKey envModel =
      match runKeys t (modelCandidates envModel)
          (keySequence (strippedOpt payload.apiKey) (strippedOpt (some envKey)))
          none [] with
      | .success r tr => .ok (r, tr)
      | .exhausted le tr => .ok (fallbackReply le, tr) := by
  simp only [chat_with_gemini]
  cases hs : strippedOpt (some envKey) with
  | some sk => rfl
  | none =>
    cases hc : strippedOpt payload.apiKey with
    | none =>
      rcases hKey with h | h
      · exact absurd hs h
      · exact absurd hc h
    | some ck => rfl

/-- C2 (amended): provided no provider response carries the explicit
invalid-credential signal, the attempt sequence is deterministic and nested
in the order credential (caller key first if present and non-empty after
trimming, then server key if different), then protocol version (v1 before
v1beta), then model (environment-preferred first, then the fixed fallback
list), one request per combination; iteration stops at the first HTTP 200
response whose first candidate carries a non-empty parts list, and the text
of its first part — possibly empty — is returned verbatim as the reply;
otherwise all combinations are tried and the canned reply is returned. -/
theorem gateway_iteration_order (t : Transport) (payload : ChatReq)
    (envKey : String) (envModel : Option String)
    (hNoInv : ∀ k v m, isInvalidKeySignal (t k v m) = false)
    (hKey : strippedOpt (some envKey) ≠ none ∨ strippedOpt payload.apiKey ≠ none) :
    match firstSuccessSplit t (attemptSequence (strippedOpt payload.apiKey)
        (strippedOpt (some envKey)) (modelCandidates envModel)) with
    | some (pre, a, text) =>
      chat_with_gemini t payload envKey envModel = .ok (text, pre ++ [a])
    | none =>
      chat_with_gemini t payload envKey envModel =
        .ok (fallbackReply (lastErrorAfter t none
            (attemptSequence (strippedOpt payload.apiKey)
              (strippedOpt (some envKey)) (modelCandidates envModel))),
          attemptSequence (strippedOpt payload.apiKey)
            (strippedOpt (some envKey)) (modelCandidates envModel)) := by
  have hchat := chat_eq_runKeys t payload envKey envModel hKey
  have hrun := runKeys_eq_scanRun t (modelCandidates envModel)
    (keySequence (strippedOpt payload.apiKey) (strippedOpt (some envKey)))
    hNoInv none []
  rw [scanRun_spec, attemptSequence_eq] at hrun
  rw [hrun] at hchat
  cases hf : firstSuccessSplit t (attemptSequence (strippedOpt payload.apiKey)
      (strippedOpt (some envKey)) (modelCandidates envModel)) with
  | some pat =>
    obtain ⟨pre, a, text⟩ := pat
    rw [hf] at hchat
    simpa using hchat
  | none =>
    rw [hf] at hchat
    simpa using hchat

/-- Witness for C2 at a concrete transport succeeding on the fourth model of
the server key. -/
theorem gateway_iteration_order_spot :
    chat_with_gemini fourthModelTransport ⟨"hi", none, none, none⟩ "SK" none =
      .ok ("hello there",
        [⟨"server", "SK", "v1", "gemini-2.0-flash"⟩,
         ⟨"server", "SK", "v1", "gemini-2.0-flash-lite"⟩,
         ⟨"server", "SK", "v1", "gemini-1.5-flash-latest"⟩,
         ⟨"server", "SK", "v1", "gemini-1.5-flash"⟩]) := by
  have h := gateway_iteration_order fourthModelTransport ⟨"hi", none, none, none⟩
    "SK" none
    (fun k v m => by
      unfold fourthModelTransport
      split <;> rfl)
    (Or.inl (by decide))
  exact h

/-! ## Exhaustion lemmas (every attempt fails, invalid-key signals allowed) -/

/-- Helper: when every model fails for the given key and version, the model
loop exhausts, issuing some prefix of the models and folding the last error
over the attempts actually issued. -/
theorem runModels_fail (t : Transport) (src key ver : String)
    (ms : List String) (h : ∀ m ∈ ms, extractSuccess (t key ver m) = none) :
    ∀ (le : Option String) (tr : List Attempt),
    ∃ tr2, runModels t src key ver ms le tr =
      .exhausted (lastErrorAfter t le tr2) (tr ++ tr2) := by
  induction ms with
  | nil =>
    intro le tr
    exact ⟨[], by simp [runModels, lastErrorAfter]⟩
  | cons m rest ih =>
    intro le tr
    have hm := h m (List.mem_cons_self m rest)
    have hrest : ∀ x ∈ rest, extractSuccess (t key ver x) = none :=
      fun x hx => h x (List.mem_cons_of_mem m hx)
    simp only [runModels]
    cases hr : t key ver m with
    | exn msg =>
      obtain ⟨tr2, htr2⟩ := ih hrest (some msg) (tr ++ [⟨src, key, ver, m⟩])
      refine ⟨⟨src, key, ver, m⟩ :: tr2, ?_⟩
      simp [htr2, lastErrorAfter, updateLastErr, hr]
    | ok body =>
      cases hb : body.candidates with
      | nil =>
        obtain ⟨tr2, htr2⟩ := ih hrest le (tr ++ [⟨src, key, ver, m⟩])
        refine ⟨⟨src, key, ver, m⟩ :: tr2, ?_⟩
        simp [htr2, lastErrorAfter, updateLastErr, hr, hb]
      | cons c cs =>
        cases hp : c.content.parts with
        | nil =>
          obtain ⟨tr2, htr2⟩ := ih hrest le (tr ++ [⟨src, key, ver, m⟩])
          refine ⟨⟨src, key, ver, m⟩ :: tr2, ?_⟩
          simp [htr2, lastErrorAfter, updateLastErr, hr, hb, hp]
        | cons p ps =>
          exfalso
          simp [extractSuccess, hr, hb, hp] at hm
    | okParseError bodyText err =>
      obtain ⟨tr2, htr2⟩ := ih hrest le (tr ++ [⟨src, key, ver, m⟩])
      refine ⟨⟨src, key, ver, m⟩ :: tr2, ?_⟩
      simp [htr2, lastErrorAfter, updateLastErr, hr]
    | err status bodyText =>
      by_cases hinv : status = 400 ∧ containsApiKeyInvalid bodyText
      · refine ⟨[⟨src, key, ver, m⟩], ?_⟩
        simp [hinv.1, hinv.2, lastErrorAfter, updateLastErr, hr]
      · obtain ⟨tr2, htr2⟩ := ih hrest (some bodyText) (tr ++ [⟨src, key, ver, m⟩])
        refine ⟨⟨src, key, ver, m⟩ :: tr2, ?_⟩
        simp [if_neg hinv, htr2, lastErrorAfter, updateLastErr, hr]

/-- Helper: when every attempt for the given key fails, the version loop
exhausts. -/
theorem runVersions_fail (t : Transport) (src key : String)
    (models vs : List String)
    (h : ∀ v ∈ vs, ∀ m ∈ models, extractSuccess (t key v m) = none) :
    ∀ (le : Option String) (tr : List Attempt),
    ∃ tr2, runVersions t src key models vs le tr =
      .exhausted (lastErrorAfter t le tr2) (tr ++ tr2) := by
  induction vs with
  | nil =>
    intro le tr
    exact ⟨[], by simp [runVersions, lastErrorAfter]⟩
  | cons v rest ih =>
    intro le tr
    obtain ⟨tr1, h1⟩ := runModels_fail t src key v models
      (fun m hm => h v (List.mem_cons_self v rest) m hm) le tr
    obtain ⟨tr2, h2⟩ := ih
      (fun v2 hv2 m hm => h v2 (List.mem_cons_of_mem v hv2) m hm)
      (lastErrorAfter t le tr1) (tr ++ tr1)
    refine ⟨tr1 ++ tr2, ?_⟩
    simp only [runVersions, h1, h2]
    rw [lastErrorAfter_append]
    simp

/-- Helper: when every attempt fails, the key loop exhausts. -/
theorem runKeys_fail (t : Transport) (models : List String)
    (keys : List (String × String))
    (h : ∀ k v m, extractSuccess (t k v m) = none) :
    ∀ (le : Option String) (tr : List Attempt),
    ∃ tr2, runKeys t models keys le tr =
      .exhausted (lastErrorAfter t le tr2) (tr ++ tr2) := by
  induction keys with
  | nil =>
    intro le tr
    exact ⟨[], by simp [runKeys, lastErrorAfter]⟩
  | cons kp rest ih =>
    intro le tr
    obtain ⟨label, key⟩ := kp
    obtain ⟨tr1, h1⟩ := runVersions_fail t label key models apiVersions
      (fun v _ m _ => h key v m) le tr
    obtain ⟨tr2, h2⟩ := ih (lastErrorAfter t le tr1) (tr ++ tr1)
    refine ⟨tr1 ++ tr2, ?_⟩
    simp only [runKeys, h1, h2]
    rw [lastErrorAfter_append]
    simp

/-- C3: when an API key is configured and every candidate attempt fails, the
chat handler still answers 200, with the canned apologetic reply carrying
the first 400 characters of the final last-error text as its diagnostic
excerpt whenever that text exists and is non-empty (Python truthiness of
`last_error_text`; an empty last error contributes an empty excerpt and no
header); no error status and no exception escape. -/
theorem chat_exhaustion_canned_reply (t : Transport) (payload : ChatReq)
    (envKey : String) (envModel : Option String)
    (hKey : strippedOpt (some envKey) ≠ none ∨ strippedOpt payload.apiKey ≠ none)
    (hFail : ∀ k v m, extractSuccess (t k v m) = none) :
    ∃ tr, chat_with_gemini t payload envKey envModel =
      .ok (fallbackReply (lastErrorAfter t none tr), tr) := by
  obtain ⟨tr2, h2⟩ := runKeys_fail t (modelCandidates envModel)
    (keySequence (strippedOpt payload.apiKey) (strippedOpt (some envKey)))
    hFail none []
  refine ⟨tr2, ?_⟩
  rw [chat_eq_runKeys t payload envKey envModel hKey, h2]
  simp

/-- Witness for C3 at a transport that always fails with a plain 503. -/
theorem chat_exhaustion_canned_reply_spot :
    ∃ tr, chat_with_gemini allFailTransport ⟨"hello", none, none, none⟩ "SK" none =
      .ok (fallbackReply (lastErrorAfter allFailTransport none tr), tr) :=
  chat_exhaustion_canned_reply allFailTransport ⟨"hello", none, none, none⟩ "SK"
    none (Or.inl (by decide)) (fun _ _ _ => rfl)

end CallCompanion
